import Mathlib

/-!
Shallow embedding of the notification bot in `bot.py`.

The program polls a remote Notion database for records whose status changed,
diffs each fetched record's status against a persisted last-known status
(SQLite table `page_status`), sends a Telegram message to every registered
subscriber when a record transitions into a trigger status, and persists a
watermark timestamp (`meta` key `last_checked_iso`).

Modelling conventions:
* ISO-8601 UTC timestamp strings are modelled as `Int` seconds; lexicographic
  order on the strings corresponds to numeric order, and
  `timedelta(days=1)` is `86400` seconds.
* The SQLite tables are modelled as association lists / a list of chat ids /
  an `Option Int` for the single `meta` key `last_checked_iso` that the
  program ever uses.
* One poll cycle of `check_loop` is modelled by `runCycle`.  Its external
  inputs are bundled in `CycleInput`: the outcome of `query_since` (the
  paged fetch, which either returns a page list or raises), whether the
  `get_db_meta` / `get_title_prop_name` calls succeed, the wall clock, and
  the per-recipient delivery outcome of `bot.send_message`.
* `CycleInput.clock n` is the wall-clock reading at the cycle's n-th time
  point: point 0 is the start of the cycle (the moment `query_since` is
  called, line 276), point 1 is the moment after the fetch and the schema
  retrieval return, when line 280 executes `datetime.now(timezone.utc)`.
* Each cycle also yields a trace of its observable effects (`Action`) in
  source order, so ordering claims can be stated.
-/

namespace NotionBot

/-- TRIGGER_STATUSES from bot.py line 30, copied verbatim (the second entry
mixes Latin and Cyrillic letters in the source). Python uses a set; only
membership is ever tested, so a list models it. -/
def TRIGGER_STATUSES : List String := ["Заканчивается", "ZAKONCHILОСЬ", "ЗАКОНЧИЛОСЬ"]

/-- The value of the status property of a fetched page, as seen by
`extract_status`: a select-typed property carrying either a value object with
a name or null, or a property of some other type. -/
inductive StatusProp where
  | sel (value : Option String)
  | other
deriving DecidableEq

/-- A fetched Notion page, reduced to the fields the program reads:
`p["id"]`, the title text (already resolved through the title property;
`none` models a missing/empty title list, which `extract_title` replaces by
a placeholder), the raw status property (`none` models the property being
absent, which raises KeyError inside `extract_status`), and `p["url"]`. -/
structure Page where
  id : String
  title : Option String
  statusVal : Option StatusProp
  url : String
deriving DecidableEq

/-- extract_status (bot.py lines 129-136): returns the select value's name
when the property exists, is select-typed and non-null; every other shape
(missing property, non-select type, null select) yields None. -/
def extract_status (p : Page) : Option String :=
  match p.statusVal with
  | some (StatusProp.sel (some name)) => some name
  | _ => none

/-- extract_title (bot.py lines 120-127): the first title item's plain text,
or the placeholder when the title list is empty or an exception occurs. -/
def extract_title (p : Page) : String := p.title.getD "(без названия)"

/-- The persistent SQLite state (state.db): table `users` (chat ids, primary
key), table `page_status` (page_id primary key, nullable last_status), and
the single `meta` row with key `last_checked_iso` (an ISO timestamp,
modelled as `Int` seconds). -/
structure Store where
  users : List Int
  pageStatus : List (String × Option String)
  checkpoint : Option Int
deriving DecidableEq

/-- register_user (bot.py lines 59-61): INSERT OR IGNORE into users. -/
def register_user (st : Store) (chat_id : Int) : Store :=
  if chat_id ∈ st.users then st else { st with users := st.users ++ [chat_id] }

/-- get_subscribers (bot.py lines 63-66): SELECT chat_id FROM users. -/
def get_subscribers (st : Store) : List Int := st.users

/-- Lookup of a row by primary key in the modelled `page_status` table.
`some v` means a row exists whose last_status column is `v` (possibly NULL,
i.e. `none`); `none` means no row. -/
def rowLookup : List (String × Option String) → String → Option (Option String)
  | [], _ => none
  | (k, v) :: rest, pid => if k = pid then some v else rowLookup rest pid

/-- get_last_status (bot.py lines 68-72): returns the row's last_status if a
row exists, else None.  A row whose last_status is NULL and a missing row
both yield None, exactly as `row[0] if row else None` does. -/
def get_last_status (st : Store) (page_id : String) : Option String :=
  match rowLookup st.pageStatus page_id with
  | some v => v
  | none => none

/-- Upsert of a row by primary key: INSERT .. ON CONFLICT(page_id) DO UPDATE
keeps the row in place and overwrites its last_status. -/
def upsertRow : List (String × Option String) → String → Option String → List (String × Option String)
  | [], pid, s => [(pid, s)]
  | (k, v) :: rest, pid, s => if k = pid then (pid, s) :: rest else (k, v) :: upsertRow rest pid s

/-- upsert_status (bot.py lines 74-80). -/
def upsert_status (st : Store) (page_id : String) (status : Option String) : Store :=
  { st with pageStatus := upsertRow st.pageStatus page_id status }

/-- set_meta (bot.py lines 82-87), specialised to the only key the program
writes, `last_checked_iso`. -/
def set_meta (st : Store) (t : Int) : Store := { st with checkpoint := some t }

/-- get_meta (bot.py lines 89-93), specialised to the key `last_checked_iso`. -/
def get_meta (st : Store) : Option Int := st.checkpoint

/-- A trigger event as built at bot.py lines 288-290: the pieces of the
message text (title, status, url). -/
structure TriggerEvent where
  title : String
  status : String
  url : String
deriving DecidableEq

/-- One observable effect of a poll cycle, in source order:
`fetchSince t` is the call `query_since(last_checked)` with watermark `t`
(line 276); `readClock t` is `datetime.now(timezone.utc)` returning `t`
(line 280); `putStatus` is `upsert_status` (line 285); `trigger` is the
construction of a notification for a page (lines 287-290); `send` is one
`bot.send_message` attempt with its outcome (lines 293-297); `putCheckpoint`
is `set_meta("last_checked_iso", now_iso)` (line 299). -/
inductive Action where
  | fetchSince (since : Int)
  | readClock (t : Int)
  | putStatus (pid : String) (status : Option String)
  | trigger (pid : String) (ev : TriggerEvent)
  | send (chat_id : Int) (ev : TriggerEvent) (ok : Bool)
  | putCheckpoint (t : Int)
deriving DecidableEq

/-- The trigger condition at bot.py line 287:
`curr is not None and curr in TRIGGER_STATUSES and curr != prev`. -/
def trigger_check (curr prev : Option String) : Bool :=
  match curr with
  | none => false
  | some s => decide (s ∈ TRIGGER_STATUSES) && decide (some s ≠ prev)

/-- The event built for a triggering page (bot.py lines 288-290).  In the
triggering branch `extract_status p` is `some s`, so the default is never
used there. -/
def mkEvent (p : Page) : TriggerEvent :=
  { title := extract_title p, status := (extract_status p).getD "", url := p.url }

/-- The body of the per-page loop of `check_loop` (bot.py lines 281-297):
read prev, upsert curr, and if the trigger condition holds, build the event
and attempt one send per subscriber, each send's failure being caught. -/
def processPage (sOk : Int → Bool) (st : Store) (p : Page) : Store × List Action :=
  if trigger_check (extract_status p) (get_last_status st p.id) then
    (upsert_status st p.id (extract_status p),
      Action.putStatus p.id (extract_status p) ::
      Action.trigger p.id (mkEvent p) ::
      (get_subscribers (upsert_status st p.id (extract_status p))).map
        (fun cid => Action.send cid (mkEvent p) (sOk cid)))
  else
    (upsert_status st p.id (extract_status p), [Action.putStatus p.id (extract_status p)])

/-- The whole `for p in changed` loop (bot.py lines 281-297). -/
def processPages (sOk : Int → Bool) (st : Store) : List Page → Store × List Action
  | [] => (st, [])
  | p :: rest =>
    ((processPages sOk (processPage sOk st p).1 rest).1,
      (processPage sOk st p).2 ++ (processPages sOk (processPage sOk st p).1 rest).2)

/-- FetchError: `query_since` raising (APIResponseError or any exception
from the remote query). -/
inductive FetchError where
  | apiError
deriving DecidableEq

/-- External inputs of one poll cycle: the outcome of `query_since` as a
function of the watermark it is called with; whether `get_db_meta` /
`get_title_prop_name` succeed; the wall clock (see the module docstring for
the time points); and the per-chat outcome of `bot.send_message`. -/
structure CycleInput where
  fetch : Int → Except FetchError (List Page)
  dbMetaOk : Bool
  clock : Nat → Int
  sendOk : Int → Bool

/-- One iteration of the `while True` loop of `check_loop` (bot.py lines
274-304).  `lastCheckedVar` is the Python local variable `last_checked`,
which is read from the store once before the loop (lines 268-272) and never
reassigned inside it.  Any exception from `query_since` or from the schema
retrieval is caught by the handlers at lines 300-303, so the cycle then
performs no writes.  On success, `now_iso` is read AFTER the fetch returns
(line 280 follows line 276), the page loop runs, and the checkpoint is
persisted as the last action (line 299). -/
def runCycle (inp : CycleInput) (st : Store) (lastCheckedVar : Int) : Store × List Action :=
  match inp.fetch lastCheckedVar with
  | Except.error _ => (st, [Action.fetchSince lastCheckedVar])
  | Except.ok changed =>
    if inp.dbMetaOk then
      (set_meta (processPages inp.sendOk st changed).1 (inp.clock 1),
        Action.fetchSince lastCheckedVar :: Action.readClock (inp.clock 1) ::
        (processPages inp.sendOk st changed).2 ++ [Action.putCheckpoint (inp.clock 1)])
    else (st, [Action.fetchSince lastCheckedVar])

/-- One day in seconds, the `timedelta(days=1)` of bot.py line 270. -/
def ONE_DAY : Int := 86400

/-- The initialisation prologue of `check_loop` (bot.py lines 268-272),
executed once at startup: read the checkpoint; if absent, set the local
variable and the store to `now - 1 day` where `t0` is the wall clock at
startup.  Returns the store and the value of the local `last_checked`. -/
def check_loop_init (t0 : Int) (st : Store) : Store × Int :=
  match get_meta st with
  | some t => (st, t)
  | none => (set_meta st (t0 - ONE_DAY), t0 - ONE_DAY)

/-- A run of consecutive poll cycles.  `lastCheckedVar` stays the same for
every cycle because the source never reassigns `last_checked` inside the
loop. -/
def runCycles (lastCheckedVar : Int) (st : Store) : List CycleInput → Store × List (List Action)
  | [] => (st, [])
  | inp :: rest =>
    ((runCycles lastCheckedVar (runCycle inp st lastCheckedVar).1 rest).1,
      (runCycle inp st lastCheckedVar).2 ::
      (runCycles lastCheckedVar (runCycle inp st lastCheckedVar).1 rest).2)

/-- The persisted checkpoint observed after each successive cycle of a run. -/
def checkpointsAfter (lastCheckedVar : Int) (st : Store) : List CycleInput → List (Option Int)
  | [] => []
  | inp :: rest =>
    get_meta (runCycle inp st lastCheckedVar).1 ::
    checkpointsAfter lastCheckedVar (runCycle inp st lastCheckedVar).1 rest

/-- One page of a remote query response: `resp["results"]`,
`resp.get("has_more")`, `resp.get("next_cursor")`. -/
structure QueryResp where
  results : List Page
  has_more : Bool
  next_cursor : Option String

/-- The cursor-walking loop shared verbatim by `query_all` (bot.py lines
138-154), `query_by_group` (lines 156-171) and `query_since` (lines
173-191): request a page, append its results, stop when `has_more` is
falsy, else continue from `next_cursor`.  The source loop is `while True`
with no iteration cap; `fuel` bounds how many page requests we are willing
to unfold, and a `none` result means the loop was still running after
`fuel` requests. -/
def paginate (remote : Option String → QueryResp) : Nat → Option String → List Page → Option (List Page)
  | 0, _, _ => none
  | n + 1, cursor, acc =>
    if (remote cursor).has_more then
      paginate remote n (remote cursor).next_cursor (acc ++ (remote cursor).results)
    else some (acc ++ (remote cursor).results)

/-- query_since (bot.py lines 173-191): the cursor walk with the
last_edited_time on_or_after filter baked into the remote. -/
def query_since (remote : Int → Option String → QueryResp) (since_iso : Int) (fuel : Nat) : Option (List Page) :=
  paginate (remote since_iso) fuel none []

/-- query_all (bot.py lines 138-154): the same cursor walk, no filter. -/
def query_all (remote : Option String → QueryResp) (fuel : Nat) : Option (List Page) :=
  paginate remote fuel none []

/-- query_by_group (bot.py lines 156-171): the same cursor walk with the
group filter baked into the remote. -/
def query_by_group (remote : String → Option String → QueryResp) (group_name : String) (fuel : Nat) : Option (List Page) :=
  paginate (remote group_name) fuel none []

/-- A remote whose every response claims more pages follow: the protocol
violation of claim C6 (no terminal flag is ever returned). -/
def alwaysMoreRemote : Option String → QueryResp :=
  fun _ => { results := [], has_more := true, next_cursor := some "cursor" }

/-- Actions of kind `trigger` for a given page id within a trace. -/
def isTriggerFor (pid : String) : Action → Bool
  | Action.trigger q _ => decide (q = pid)
  | _ => false

/-- The trigger events emitted for a given page id within a trace. -/
def triggersFor (pid : String) (tr : List Action) : List Action :=
  tr.filter (isTriggerFor pid)

/-! Concrete instances used to evaluate the model on explicit inputs. -/

/-- Store holding a persisted checkpoint of 100 (used for C1). -/
def c1store : Store := { users := [], pageStatus := [], checkpoint := some 100 }

/-- First cycle's inputs for C1: empty fetch result, wall clock at 200. -/
def c1i1 : CycleInput :=
  { fetch := fun _ => Except.ok [], dbMetaOk := true, clock := fun _ => 200, sendOk := fun _ => true }

/-- Second cycle's inputs for C1: empty fetch result, wall clock at 300. -/
def c1i2 : CycleInput :=
  { fetch := fun _ => Except.ok [], dbMetaOk := true, clock := fun _ => 300, sendOk := fun _ => true }

/-- Store holding a persisted checkpoint of 100 (used for C2). -/
def c2store : Store := { users := [], pageStatus := [], checkpoint := some 100 }

/-- Cycle inputs for C2: the wall clock advances by 50 per time point, so the
cycle starts at 100 and the post-fetch reading is 150. -/
def c2inp : CycleInput :=
  { fetch := fun _ => Except.ok [], dbMetaOk := true,
    clock := fun n => 100 + 50 * (n : Int), sendOk := fun _ => true }

/-- Cycle inputs for C3: the fetch raises. -/
def c3inp : CycleInput :=
  { fetch := fun _ => Except.error FetchError.apiError, dbMetaOk := true,
    clock := fun _ => 0, sendOk := fun _ => true }

/-- Store with one subscriber, one status row and a checkpoint (used for C3). -/
def c3store : Store := { users := [7], pageStatus := [("a", some "OK")], checkpoint := some 111 }

/-- A page whose status is the trigger value "Заканчивается" (used for C4). -/
def c4page : Page :=
  { id := "pg1", title := some "Гречка",
    statusVal := some (StatusProp.sel (some "Заканчивается")), url := "u1" }

/-- Empty store (used for C4). -/
def c4store : Store := { users := [9], pageStatus := [], checkpoint := some 0 }

/-- First cycle's inputs for C4: fetch returns the trigger-status page. -/
def c4i1 : CycleInput :=
  { fetch := fun _ => Except.ok [c4page], dbMetaOk := true, clock := fun _ => 10, sendOk := fun _ => true }

/-- Second cycle's inputs for C4: fetch returns the same page, unchanged. -/
def c4i2 : CycleInput :=
  { fetch := fun _ => Except.ok [c4page], dbMetaOk := true, clock := fun _ => 20, sendOk := fun _ => true }

/-- A page first observed already in the trigger value "ЗАКОНЧИЛОСЬ" (C5). -/
def c5page : Page :=
  { id := "pg2", title := some "Рис",
    statusVal := some (StatusProp.sel (some "ЗАКОНЧИЛОСЬ")), url := "u2" }

/-- Store that has never seen c5page (used for C5). -/
def c5store : Store := { users := [4], pageStatus := [("other", some "OK")], checkpoint := some 0 }

/-- Cycle inputs for C5. -/
def c5inp : CycleInput :=
  { fetch := fun _ => Except.ok [c5page], dbMetaOk := true, clock := fun _ => 10, sendOk := fun _ => true }

/-- Cycle inputs for C7: empty fetches, wall clocks at 100010 and 100020. -/
def c7i1 : CycleInput :=
  { fetch := fun _ => Except.ok [], dbMetaOk := true, clock := fun _ => 100010, sendOk := fun _ => true }

/-- Second cycle's inputs for C7. -/
def c7i2 : CycleInput :=
  { fetch := fun _ => Except.ok [], dbMetaOk := true, clock := fun _ => 100020, sendOk := fun _ => true }

/-- Store with no checkpoint yet (first run, used for C7). -/
def c7store : Store := { users := [], pageStatus := [], checkpoint := none }

/-- A page in a trigger status (used for C8). -/
def c8page : Page :=
  { id := "pg8", title := some "Мука",
    statusVal := some (StatusProp.sel (some "Заканчивается")), url := "u8" }

/-- Store with three subscribers 1, 2, 3 (used for C8). -/
def c8store : Store := { users := [1, 2, 3], pageStatus := [], checkpoint := some 0 }

/-- Cycle inputs for C8: delivery to chat 2 fails, the others succeed. -/
def c8inp : CycleInput :=
  { fetch := fun _ => Except.ok [c8page], dbMetaOk := true, clock := fun _ => 10,
    sendOk := fun c => decide (c ≠ 2) }

/-- A page whose status property is not parseable (non-select type), C9. -/
def c9page : Page :=
  { id := "pg9", title := some "Соль", statusVal := some StatusProp.other, url := "u9" }

/-- Store with a previous non-null status for c9page (used for C9). -/
def c9store : Store := { users := [2], pageStatus := [("pg9", some "Заканчивается")], checkpoint := some 0 }

/-- Cycle inputs for C9. -/
def c9inp : CycleInput :=
  { fetch := fun _ => Except.ok [c9page], dbMetaOk := true, clock := fun _ => 10, sendOk := fun _ => true }

/-- Store with a row for "y", a subscriber and a checkpoint (used for C10). -/
def c10store : Store := { users := [5], pageStatus := [("y", some "OK")], checkpoint := some 3 }

/-! Helper lemmas about the store operations. -/

theorem rowLookup_upsertRow_self (l : List (String × Option String)) (pid : String) (s : Option String) :
    rowLookup (upsertRow l pid s) pid = some s := by
  induction l with
  | nil => simp [upsertRow, rowLookup]
  | cons kv rest ih =>
    obtain ⟨k, v⟩ := kv
    by_cases h : k = pid
    · simp [upsertRow, h, rowLookup]
    · simp [upsertRow, h, rowLookup, ih]

theorem rowLookup_upsertRow_ne (l : List (String × Option String)) (pid q : String) (s : Option String)
    (h : q ≠ pid) :
    rowLookup (upsertRow l pid s) q = rowLookup l q := by
  have hqp : ¬pid = q := fun hh => h hh.symm
  induction l with
  | nil => simp [upsertRow, rowLookup, hqp]
  | cons kv rest ih =>
    obtain ⟨k, v⟩ := kv
    by_cases hk : k = pid
    · subst hk
      simp [upsertRow, rowLookup, hqp]
    · simp [upsertRow, hk, rowLookup, ih]

theorem get_last_status_upsert_self (st : Store) (pid : String) (s : Option String) :
    get_last_status (upsert_status st pid s) pid = s := by
  simp [get_last_status, upsert_status, rowLookup_upsertRow_self]

theorem get_last_status_upsert_ne (st : Store) (pid q : String) (s : Option String) (h : q ≠ pid) :
    get_last_status (upsert_status st pid s) q = get_last_status st q := by
  simp [get_last_status, upsert_status, rowLookup_upsertRow_ne _ _ _ _ h]

theorem get_last_status_congr (st st' : Store) (pid : String)
    (h : rowLookup st.pageStatus pid = rowLookup st'.pageStatus pid) :
    get_last_status st pid = get_last_status st' pid := by
  simp [get_last_status, h]

/-! Helper lemmas about the page-processing loop. -/

theorem processPage_fst (sOk : Int → Bool) (st : Store) (p : Page) :
    (processPage sOk st p).1 = upsert_status st p.id (extract_status p) := by
  unfold processPage
  split <;> rfl

theorem processPage_users (sOk : Int → Bool) (st : Store) (p : Page) :
    (processPage sOk st p).1.users = st.users := by
  rw [processPage_fst]; rfl

theorem processPages_users (sOk : Int → Bool) (st : Store) (L : List Page) :
    (processPages sOk st L).1.users = st.users := by
  induction L generalizing st with
  | nil => rfl
  | cons p rest ih =>
    simp only [processPages]
    rw [ih, processPage_users]

theorem processPages_checkpoint (sOk : Int → Bool) (st : Store) (L : List Page) :
    (processPages sOk st L).1.checkpoint = st.checkpoint := by
  induction L generalizing st with
  | nil => rfl
  | cons p rest ih =>
    simp only [processPages]
    rw [ih, processPage_fst]
    rfl

theorem triggersFor_append (pid : String) (a b : List Action) :
    triggersFor pid (a ++ b) = triggersFor pid a ++ triggersFor pid b := by
  simp [triggersFor, List.filter_append]

theorem filter_isTriggerFor_map_send (pid : String) (ev : TriggerEvent) (sOk : Int → Bool) (l : List Int) :
    (l.map fun cid => Action.send cid ev (sOk cid)).filter (isTriggerFor pid) = [] := by
  induction l with
  | nil => rfl
  | cons c rest ih => simp [List.filter_cons, isTriggerFor, ih]

theorem triggersFor_processPage_ne (sOk : Int → Bool) (st : Store) (p : Page) (pid : String)
    (h : p.id ≠ pid) :
    triggersFor pid (processPage sOk st p).2 = [] := by
  by_cases htc : trigger_check (extract_status p) (get_last_status st p.id) = true
  · simp [processPage, htc, triggersFor, List.filter_cons, isTriggerFor, h, filter_isTriggerFor_map_send]
  · simp [processPage, htc, triggersFor, List.filter_cons, isTriggerFor]

theorem triggersFor_processPage_self (sOk : Int → Bool) (st : Store) (p : Page) (pid : String)
    (h : p.id = pid) :
    triggersFor pid (processPage sOk st p).2 =
      (if trigger_check (extract_status p) (get_last_status st p.id) then
        [Action.trigger pid (mkEvent p)] else []) := by
  subst h
  by_cases htc : trigger_check (extract_status p) (get_last_status st p.id) = true
  · simp [processPage, htc, triggersFor, List.filter_cons, isTriggerFor, filter_isTriggerFor_map_send]
  · simp [processPage, htc, triggersFor, List.filter_cons, isTriggerFor]

theorem putCheckpoint_notin_processPage (sOk : Int → Bool) (st : Store) (p : Page) (t : Int) :
    Action.putCheckpoint t ∉ (processPage sOk st p).2 := by
  by_cases htc : trigger_check (extract_status p) (get_last_status st p.id) = true
  · simp [processPage, htc]
  · simp [processPage, htc]

theorem putCheckpoint_notin_processPages (sOk : Int → Bool) (st : Store) (L : List Page) (t : Int) :
    Action.putCheckpoint t ∉ (processPages sOk st L).2 := by
  induction L generalizing st with
  | nil => simp [processPages]
  | cons p rest ih =>
    simp only [processPages, List.mem_append, not_or]
    exact ⟨putCheckpoint_notin_processPage sOk st p t, ih (processPage sOk st p).1⟩

theorem processPages_frame (sOk : Int → Bool) (st : Store) (L : List Page) (pid : String)
    (h : ∀ q ∈ L, q.id ≠ pid) :
    rowLookup (processPages sOk st L).1.pageStatus pid = rowLookup st.pageStatus pid ∧
    triggersFor pid (processPages sOk st L).2 = [] := by
  induction L generalizing st with
  | nil => exact ⟨rfl, rfl⟩
  | cons p rest ih =>
    have hp : p.id ≠ pid := h p (by simp)
    have hrest : ∀ q ∈ rest, q.id ≠ pid := fun q hq => h q (by simp [hq])
    obtain ⟨ih1, ih2⟩ := ih (processPage sOk st p).1 hrest
    refine ⟨?_, ?_⟩
    · simp only [processPages]
      rw [ih1, processPage_fst]
      exact rowLookup_upsertRow_ne _ _ _ _ (fun hh => hp hh.symm)
    · simp only [processPages]
      rw [triggersFor_append, ih2, triggersFor_processPage_ne sOk st p pid hp]
      rfl

theorem processPages_append (sOk : Int → Bool) (st : Store) (A B : List Page) :
    processPages sOk st (A ++ B) =
      ((processPages sOk (processPages sOk st A).1 B).1,
       (processPages sOk st A).2 ++ (processPages sOk (processPages sOk st A).1 B).2) := by
  induction A generalizing st with
  | nil => simp [processPages]
  | cons p rest ih =>
    simp only [List.cons_append, processPages, List.append_eq]
    rw [ih]
    simp [List.append_assoc]

theorem processPages_single (sOk : Int → Bool) (st : Store) (A B : List Page) (p : Page) (pid : String)
    (hp : p.id = pid) (hA : ∀ q ∈ A, q.id ≠ pid) (hB : ∀ q ∈ B, q.id ≠ pid) :
    rowLookup (processPages sOk st (A ++ p :: B)).1.pageStatus pid = some (extract_status p) ∧
    triggersFor pid (processPages sOk st (A ++ p :: B)).2 =
      (if trigger_check (extract_status p) (get_last_status st pid) then
        [Action.trigger pid (mkEvent p)] else []) := by
  obtain ⟨hA1, hA2⟩ := processPages_frame sOk st A pid hA
  have hprev : get_last_status (processPages sOk st A).1 pid = get_last_status st pid :=
    get_last_status_congr _ _ _ hA1
  rw [processPages_append]
  set stA := (processPages sOk st A).1 with hstA
  obtain ⟨hB1, hB2⟩ := processPages_frame sOk (processPage sOk stA p).1 B pid hB
  refine ⟨?_, ?_⟩
  · simp only [processPages]
    rw [hB1, processPage_fst, hp]
    simp [upsert_status, rowLookup_upsertRow_self]
  · rw [triggersFor_append, hA2]
    simp only [processPages]
    rw [triggersFor_append, hB2, triggersFor_processPage_self sOk stA p pid hp]
    rw [hp, hprev]
    simp

/-! Helper lemmas about one poll cycle. -/

theorem runCycle_ok (inp : CycleInput) (st : Store) (lc : Int) (pages : List Page)
    (hf : inp.fetch lc = Except.ok pages) (hdb : inp.dbMetaOk = true) :
    runCycle inp st lc =
      (set_meta (processPages inp.sendOk st pages).1 (inp.clock 1),
        Action.fetchSince lc :: Action.readClock (inp.clock 1) ::
        (processPages inp.sendOk st pages).2 ++ [Action.putCheckpoint (inp.clock 1)]) := by
  unfold runCycle
  rw [hf]
  simp [hdb]

theorem runCycle_err (inp : CycleInput) (st : Store) (lc : Int) (e : FetchError)
    (hf : inp.fetch lc = Except.error e) :
    runCycle inp st lc = (st, [Action.fetchSince lc]) := by
  unfold runCycle
  rw [hf]

theorem runCycle_nodb (inp : CycleInput) (st : Store) (lc : Int) (pages : List Page)
    (hf : inp.fetch lc = Except.ok pages) (hdb : inp.dbMetaOk = false) :
    runCycle inp st lc = (st, [Action.fetchSince lc]) := by
  unfold runCycle
  rw [hf]
  simp [hdb]

theorem get_meta_set_meta (st : Store) (t : Int) : get_meta (set_meta st t) = some t := rfl

theorem get_last_status_set_meta (st : Store) (t : Int) (pid : String) :
    get_last_status (set_meta st t) pid = get_last_status st pid := rfl

theorem pageStatus_set_meta (st : Store) (t : Int) : (set_meta st t).pageStatus = st.pageStatus := rfl

theorem paginate_alwaysMore (n : Nat) :
    ∀ (cursor : Option String) (acc : List Page), paginate alwaysMoreRemote n cursor acc = none := by
  induction n with
  | zero => intro cursor acc; rfl
  | succ k ih => intro cursor acc; simp [paginate, alwaysMoreRemote, ih]

theorem filterMap_id_map_some {α β : Type} (f : α → β) (l : List α) :
    (l.map (fun x => some (f x))).filterMap id = l.map f := by
  induction l with
  | nil => rfl
  | cons a rest ih => simp [List.filterMap_cons, ih]

theorem runCycle_get_meta_ok (inp : CycleInput) (st : Store) (lc : Int)
    (hok : ∃ L, inp.fetch lc = Except.ok L) (hdb : inp.dbMetaOk = true) :
    get_meta (runCycle inp st lc).1 = some (inp.clock 1) := by
  obtain ⟨L, hL⟩ := hok
  rw [runCycle_ok inp st lc L hL hdb]
  rfl

theorem checkpointsAfter_eq (inputs : List CycleInput) (lc : Int) :
    ∀ st : Store,
      (∀ inp ∈ inputs, ∀ t, ∃ L, inp.fetch t = Except.ok L) →
      (∀ inp ∈ inputs, inp.dbMetaOk = true) →
      checkpointsAfter lc st inputs = inputs.map (fun i => some (i.clock 1)) := by
  induction inputs with
  | nil => intro st _ _; rfl
  | cons inp rest ih =>
    intro st hok hdb
    obtain ⟨L, hL⟩ := hok inp (by simp) lc
    have hdbi : inp.dbMetaOk = true := hdb inp (by simp)
    simp only [checkpointsAfter, List.map_cons, List.cons.injEq]
    refine ⟨runCycle_get_meta_ok inp st lc ⟨L, hL⟩ hdbi, ?_⟩
    exact ih _ (fun i hi t => hok i (by simp [hi]) t) (fun i hi => hdb i (by simp [hi]))

theorem processPages_sends (sOk : Int → Bool) (L : List Page) (pid : String) (ev : TriggerEvent) (cid : Int) :
    ∀ st : Store, cid ∈ st.users →
      Action.trigger pid ev ∈ (processPages sOk st L).2 →
      Action.send cid ev (sOk cid) ∈ (processPages sOk st L).2 := by
  induction L with
  | nil => intro st _ htr; simp [processPages] at htr
  | cons p rest ih =>
    intro st hcid htr
    simp only [processPages, List.mem_append] at htr ⊢
    rcases htr with h1 | h2
    · left
      by_cases htc : trigger_check (extract_status p) (get_last_status st p.id) = true
      · simp only [processPage, htc, if_true, List.mem_cons, List.mem_map] at h1 ⊢
        rcases h1 with h1 | h1 | h1
        · exact absurd h1 (by simp)
        · obtain ⟨hpid, hev⟩ := Action.trigger.inj h1
          subst hev
          right; right
          exact ⟨cid, hcid, rfl⟩
        · obtain ⟨c, _, hc⟩ := h1
          exact absurd hc (by simp)
      · simp [processPage, htc] at h1
    · right
      exact ih (processPage sOk st p).1 (by rw [processPage_users]; exact hcid) h2

/-! Claims. -/

/-- C1 (code_bug evidence): the fetch watermark does NOT follow the persisted
checkpoint.  The local `last_checked` is read once before the loop (value
100 here) and never reassigned; after a successful first cycle the persisted
checkpoint is 200, yet the second cycle still calls `query_since` with 100,
as its trace shows. -/
theorem C1_stale_watermark :
    check_loop_init 500 c1store = (c1store, 100) ∧
    get_meta (runCycles 100 c1store [c1i1]).1 = some 200 ∧
    (runCycles 100 c1store [c1i1, c1i2]).2 =
      [[Action.fetchSince 100, Action.readClock 200, Action.putCheckpoint 200],
       [Action.fetchSince 100, Action.readClock 300, Action.putCheckpoint 300]] := by
  refine ⟨rfl, rfl, rfl⟩

/-- C2 counterexample: the claim says the checkpoint is advanced to a "now"
captured at the start of the cycle, before the fetch.  On a cycle whose wall
clock reads 100 at the cycle start (time point 0, when `query_since` is
called) and 150 after the fetch returns (time point 1), the code persists
150, not the cycle-start reading 100. -/
theorem C2_counterexample :
    c2inp.clock 0 = 100 ∧
    get_meta (runCycle c2inp c2store 100).1 = some 150 ∧
    get_meta (runCycle c2inp c2store 100).1 ≠ some (c2inp.clock 0) := by
  refine ⟨rfl, rfl, by decide⟩

/-- C2 (amended): on overall cycle success, and only then, the checkpoint is
advanced to the single wall-clock reading taken after the fetch returns but
before the diff loop runs (`inp.clock 1`); the checkpoint is written at no
other point during the cycle (the diff trace contains no checkpoint write,
and failed cycles write nothing). -/
theorem C2_checkpoint_write_discipline (inp : CycleInput) (st : Store) (lc : Int) :
    (∀ pages, inp.fetch lc = Except.ok pages → inp.dbMetaOk = true →
      get_meta (runCycle inp st lc).1 = some (inp.clock 1) ∧
      (runCycle inp st lc).2 =
        Action.fetchSince lc :: Action.readClock (inp.clock 1) ::
        (processPages inp.sendOk st pages).2 ++ [Action.putCheckpoint (inp.clock 1)] ∧
      (∀ t, Action.putCheckpoint t ∈ (processPages inp.sendOk st pages).2 → False)) ∧
    (∀ e, inp.fetch lc = Except.error e →
      get_meta (runCycle inp st lc).1 = get_meta st ∧
      (∀ t, Action.putCheckpoint t ∈ (runCycle inp st lc).2 → False)) ∧
    (inp.dbMetaOk = false →
      get_meta (runCycle inp st lc).1 = get_meta st ∧
      (∀ t, Action.putCheckpoint t ∈ (runCycle inp st lc).2 → False)) := by
  refine ⟨?_, ?_, ?_⟩
  · intro pages hf hdb
    rw [runCycle_ok inp st lc pages hf hdb]
    exact ⟨rfl, rfl, fun t ht => putCheckpoint_notin_processPages inp.sendOk st pages t ht⟩
  · intro e hf
    rw [runCycle_err inp st lc e hf]
    exact ⟨rfl, fun t ht => by simp at ht⟩
  · intro hdb
    cases hfe : inp.fetch lc with
    | error e =>
      rw [runCycle_err inp st lc e hfe]
      exact ⟨rfl, fun t ht => by simp at ht⟩
    | ok pages =>
      rw [runCycle_nodb inp st lc pages hfe hdb]
      exact ⟨rfl, fun t ht => by simp at ht⟩

/-- C2 witness: the success clause of the write-discipline theorem evaluated
on a concrete successful cycle. -/
theorem C2_witness :
    get_meta (runCycle c2inp c2store 100).1 = some (c2inp.clock 1) ∧
    (runCycle c2inp c2store 100).2 =
      Action.fetchSince 100 :: Action.readClock (c2inp.clock 1) ::
      (processPages c2inp.sendOk c2store []).2 ++ [Action.putCheckpoint (c2inp.clock 1)] :=
  ⟨((C2_checkpoint_write_discipline c2inp c2store 100).1 [] rfl rfl).1,
   ((C2_checkpoint_write_discipline c2inp c2store 100).1 [] rfl rfl).2.1⟩

/-- C3: if `query_since` fails during a cycle, the persisted checkpoint after
the cycle equals its value before the cycle, and no `page_status` row is
inserted or modified during that cycle. -/
theorem C3_fetch_failure_aborts (inp : CycleInput) (st : Store) (lc : Int) (e : FetchError)
    (hf : inp.fetch lc = Except.error e) :
    get_meta (runCycle inp st lc).1 = get_meta st ∧
    (runCycle inp st lc).1.pageStatus = st.pageStatus := by
  rw [runCycle_err inp st lc e hf]
  exact ⟨rfl, rfl⟩

/-- C3 witness: a concrete failing fetch leaves checkpoint and status rows
untouched. -/
theorem C3_witness :
    c3inp.fetch 111 = Except.error FetchError.apiError ∧
    get_meta (runCycle c3inp c3store 111).1 = get_meta c3store ∧
    (runCycle c3inp c3store 111).1.pageStatus = c3store.pageStatus :=
  ⟨rfl,
   (C3_fetch_failure_aborts c3inp c3store 111 FetchError.apiError rfl).1,
   (C3_fetch_failure_aborts c3inp c3store 111 FetchError.apiError rfl).2⟩

/-- C6 (code_bug evidence): the cursor walk of `query_since` has no
iteration cap.  Against a remote that never returns a terminal flag, the
walk has not terminated after any number of page requests: for every fuel
bound the step-indexed walk is still running, and no FetchError is ever
produced.  The source loop is `while True` with no counter, so this models
its divergence. -/
theorem C6_no_page_cap :
    ∀ fuel : Nat, query_since (fun _ => alwaysMoreRemote) 0 fuel = none := by
  intro fuel
  unfold query_since
  exact paginate_alwaysMore fuel none []

theorem triggersFor_runCycle_ok (inp : CycleInput) (st : Store) (lc : Int) (pages : List Page) (pid : String)
    (hf : inp.fetch lc = Except.ok pages) (hdb : inp.dbMetaOk = true) :
    triggersFor pid (runCycle inp st lc).2 = triggersFor pid (processPages inp.sendOk st pages).2 := by
  rw [runCycle_ok inp st lc pages hf hdb]
  simp [triggersFor, List.filter_cons, List.filter_append, isTriggerFor]

/-- C4: a record fetched in two consecutive cycles with the same trigger
status in both, and not already persisted with that status before the first
of the two cycles, emits exactly one trigger event, in the first cycle; the
second cycle emits none for it. -/
theorem C4_no_retrigger (i1 i2 : CycleInput) (st : Store) (lc : Int)
    (A1 B1 A2 B2 : List Page) (p1 p2 : Page) (s : String)
    (hf1 : i1.fetch lc = Except.ok (A1 ++ p1 :: B1)) (hdb1 : i1.dbMetaOk = true)
    (hf2 : i2.fetch lc = Except.ok (A2 ++ p2 :: B2)) (hdb2 : i2.dbMetaOk = true)
    (hs1 : extract_status p1 = some s) (hs2 : extract_status p2 = some s)
    (hid : p2.id = p1.id)
    (hA1 : ∀ q ∈ A1, q.id ≠ p1.id) (hB1 : ∀ q ∈ B1, q.id ≠ p1.id)
    (hA2 : ∀ q ∈ A2, q.id ≠ p1.id) (hB2 : ∀ q ∈ B2, q.id ≠ p1.id)
    (htrig : s ∈ TRIGGER_STATUSES)
    (hprev : get_last_status st p1.id ≠ some s) :
    triggersFor p1.id (runCycle i1 st lc).2 = [Action.trigger p1.id (mkEvent p1)] ∧
    triggersFor p1.id (runCycle i2 (runCycle i1 st lc).1 lc).2 = [] := by
  obtain ⟨h11, h12⟩ := processPages_single i1.sendOk st A1 B1 p1 p1.id rfl hA1 hB1
  have htc1 : trigger_check (extract_status p1) (get_last_status st p1.id) = true := by
    rw [hs1]
    simp only [trigger_check, Bool.and_eq_true, decide_eq_true_eq]
    exact ⟨htrig, fun hh => hprev hh.symm⟩
  have hcyc1 := runCycle_ok i1 st lc (A1 ++ p1 :: B1) hf1 hdb1
  have hfst1 : (runCycle i1 st lc).1 =
      set_meta (processPages i1.sendOk st (A1 ++ p1 :: B1)).1 (i1.clock 1) := by
    rw [hcyc1]
  constructor
  · rw [triggersFor_runCycle_ok i1 st lc (A1 ++ p1 :: B1) p1.id hf1 hdb1, h12, htc1]
    simp
  · have hst1 : get_last_status (runCycle i1 st lc).1 p1.id = some s := by
      rw [hfst1, get_last_status_set_meta]
      simp [get_last_status, h11, hs1]
    obtain ⟨_, h22⟩ := processPages_single i2.sendOk (runCycle i1 st lc).1 A2 B2 p2 p1.id hid hA2 hB2
    have htc2 : trigger_check (extract_status p2) (get_last_status (runCycle i1 st lc).1 p1.id) = false := by
      rw [hs2, hst1]
      simp [trigger_check]
    rw [triggersFor_runCycle_ok i2 (runCycle i1 st lc).1 lc (A2 ++ p2 :: B2) p1.id hf2 hdb2, h22, htc2]
    simp

/-- C4 witness: a page in status "Заканчивается" fetched by two consecutive
cycles triggers once, in the first cycle only. -/
theorem C4_witness :
    triggersFor "pg1" (runCycle c4i1 c4store 0).2 = [Action.trigger "pg1" (mkEvent c4page)] ∧
    triggersFor "pg1" (runCycle c4i2 (runCycle c4i1 c4store 0).1 0).2 = [] :=
  C4_no_retrigger c4i1 c4i2 c4store 0 [] [] [] [] c4page c4page "Заканчивается"
    rfl rfl rfl rfl rfl rfl rfl
    (by simp) (by simp) (by simp) (by simp)
    (by decide) (by decide)

/-- C5: a record observed for the first time (no persisted previous status)
whose current status is a trigger value emits a trigger event on that first
observation. -/
theorem C5_first_observation_fires (inp : CycleInput) (st : Store) (lc : Int)
    (A B : List Page) (p : Page) (s : String)
    (hf : inp.fetch lc = Except.ok (A ++ p :: B)) (hdb : inp.dbMetaOk = true)
    (hA : ∀ q ∈ A, q.id ≠ p.id) (hB : ∀ q ∈ B, q.id ≠ p.id)
    (hs : extract_status p = some s) (htrig : s ∈ TRIGGER_STATUSES)
    (hnone : get_last_status st p.id = none) :
    triggersFor p.id (runCycle inp st lc).2 = [Action.trigger p.id (mkEvent p)] := by
  obtain ⟨_, h2⟩ := processPages_single inp.sendOk st A B p p.id rfl hA hB
  have htc : trigger_check (extract_status p) (get_last_status st p.id) = true := by
    rw [hs, hnone]
    simp [trigger_check, htrig]
  rw [triggersFor_runCycle_ok inp st lc (A ++ p :: B) p.id hf hdb, h2, htc]
  simp

/-- C5 witness: a page first observed already in status "ЗАКОНЧИЛОСЬ" fires. -/
theorem C5_witness :
    triggersFor "pg2" (runCycle c5inp c5store 0).2 = [Action.trigger "pg2" (mkEvent c5page)] :=
  C5_first_observation_fires c5inp c5store 0 [] [] c5page "ЗАКОНЧИЛОСЬ"
    rfl rfl (by simp) (by simp) rfl (by decide) (by decide)

/-- C7: on first run the checkpoint is initialised to now minus one day, and
across any sequence of successful cycles the persisted checkpoint values are
exactly the per-cycle post-fetch clock readings, hence non-decreasing
whenever the wall clock is. -/
theorem C7_checkpoint_monotone (t0 : Int) (st0 : Store) (inputs : List CycleInput)
    (h0 : get_meta st0 = none)
    (hok : ∀ inp ∈ inputs, ∀ t, ∃ L, inp.fetch t = Except.ok L)
    (hdb : ∀ inp ∈ inputs, inp.dbMetaOk = true)
    (hchain : List.Chain' (fun a b => a ≤ b) ((t0 - ONE_DAY) :: inputs.map (fun i => i.clock 1))) :
    get_meta (check_loop_init t0 st0).1 = some (t0 - ONE_DAY) ∧
    checkpointsAfter (check_loop_init t0 st0).2 (check_loop_init t0 st0).1 inputs
      = inputs.map (fun i => some (i.clock 1)) ∧
    List.Chain' (fun a b => a ≤ b)
      ((t0 - ONE_DAY) ::
        (checkpointsAfter (check_loop_init t0 st0).2 (check_loop_init t0 st0).1 inputs).filterMap id) := by
  have hinit : check_loop_init t0 st0 = (set_meta st0 (t0 - ONE_DAY), t0 - ONE_DAY) := by
    unfold check_loop_init
    rw [h0]
  have heq : checkpointsAfter (check_loop_init t0 st0).2 (check_loop_init t0 st0).1 inputs
      = inputs.map (fun i => some (i.clock 1)) := by
    rw [hinit]
    exact checkpointsAfter_eq inputs (t0 - ONE_DAY) (set_meta st0 (t0 - ONE_DAY)) hok hdb
  refine ⟨by rw [hinit]; rfl, heq, ?_⟩
  rw [heq, filterMap_id_map_some]
  exact hchain

/-- C7 witness: first run with no checkpoint, then two successful cycles
whose clocks advance; the persisted sequence is the initialisation value
followed by each cycle's clock, and it is non-decreasing. -/
theorem C7_witness :
    get_meta (check_loop_init 100000 c7store).1 = some (100000 - ONE_DAY) ∧
    checkpointsAfter (check_loop_init 100000 c7store).2 (check_loop_init 100000 c7store).1 [c7i1, c7i2]
      = [c7i1, c7i2].map (fun i => some (i.clock 1)) ∧
    List.Chain' (fun a b => a ≤ b)
      ((100000 - ONE_DAY) ::
        (checkpointsAfter (check_loop_init 100000 c7store).2 (check_loop_init 100000 c7store).1
          [c7i1, c7i2]).filterMap id) :=
  C7_checkpoint_monotone 100000 c7store [c7i1, c7i2] rfl
    (by
      intro inp hmem t
      simp only [List.mem_cons, List.not_mem_nil, or_false] at hmem
      rcases hmem with rfl | rfl
      · exact ⟨[], rfl⟩
      · exact ⟨[], rfl⟩)
    (by
      intro inp hmem
      simp only [List.mem_cons, List.not_mem_nil, or_false] at hmem
      rcases hmem with rfl | rfl <;> rfl)
    (by norm_num [List.chain'_cons, List.chain'_singleton, c7i1, c7i2, ONE_DAY])

/-- C8: a trigger event emitted during a cycle is attempted for every
subscriber, each with its own delivery outcome: one recipient's failure
does not remove any other recipient's send, for any of the cycle's events. -/
theorem C8_delivery_isolation (inp : CycleInput) (st : Store) (lc : Int) (pid : String) (ev : TriggerEvent)
    (htr : Action.trigger pid ev ∈ (runCycle inp st lc).2) :
    ∀ cid ∈ get_subscribers st, Action.send cid ev (inp.sendOk cid) ∈ (runCycle inp st lc).2 := by
  intro cid hcid
  cases hfe : inp.fetch lc with
  | error e =>
    rw [runCycle_err inp st lc e hfe] at htr
    simp at htr
  | ok pages =>
    by_cases hdb : inp.dbMetaOk = true
    · rw [runCycle_ok inp st lc pages hfe hdb] at htr ⊢
      rcases List.mem_cons.mp htr with h | htr2
      · exact absurd h (by simp)
      · rcases List.mem_cons.mp htr2 with h2 | htr3
        · exact absurd h2 (by simp)
        · rcases List.mem_append.mp htr3 with h3 | h3
          · have hs := processPages_sends inp.sendOk pages pid ev cid st hcid h3
            exact List.mem_cons_of_mem _ (List.mem_cons_of_mem _ (List.mem_append_left _ hs))
          · exact absurd h3 (by simp)
    · have hdb' : inp.dbMetaOk = false := by
        cases hb : inp.dbMetaOk
        · rfl
        · exact absurd hb hdb
      rw [runCycle_nodb inp st lc pages hfe hdb'] at htr
      simp at htr

/-- C8 witness: three subscribers 1, 2, 3 where delivery to 2 fails; 1 and 3
still receive the triggered event's message. -/
theorem C8_witness :
    Action.send 1 (mkEvent c8page) (c8inp.sendOk 1) ∈ (runCycle c8inp c8store 0).2 ∧
    Action.send 3 (mkEvent c8page) (c8inp.sendOk 3) ∈ (runCycle c8inp c8store 0).2 :=
  ⟨C8_delivery_isolation c8inp c8store 0 "pg8" (mkEvent c8page) (by decide) 1 (by decide),
   C8_delivery_isolation c8inp c8store 0 "pg8" (mkEvent c8page) (by decide) 3 (by decide)⟩

/-- C9: a fetched record whose status is absent or unparseable emits no
trigger event in that cycle, and its persisted last-known status is set to
NULL, overwriting any previous value (the row exists and holds `none`). -/
theorem C9_unparseable_status (inp : CycleInput) (st : Store) (lc : Int)
    (A B : List Page) (p : Page)
    (hf : inp.fetch lc = Except.ok (A ++ p :: B)) (hdb : inp.dbMetaOk = true)
    (hA : ∀ q ∈ A, q.id ≠ p.id) (hB : ∀ q ∈ B, q.id ≠ p.id)
    (hs : extract_status p = none) :
    triggersFor p.id (runCycle inp st lc).2 = [] ∧
    rowLookup (runCycle inp st lc).1.pageStatus p.id = some none := by
  obtain ⟨h1, h2⟩ := processPages_single inp.sendOk st A B p p.id rfl hA hB
  have htc : trigger_check (extract_status p) (get_last_status st p.id) = false := by
    rw [hs]
    rfl
  have hcyc := runCycle_ok inp st lc (A ++ p :: B) hf hdb
  constructor
  · rw [triggersFor_runCycle_ok inp st lc (A ++ p :: B) p.id hf hdb, h2, htc]
    simp
  · have hfst : (runCycle inp st lc).1 =
        set_meta (processPages inp.sendOk st (A ++ p :: B)).1 (inp.clock 1) := by
      rw [hcyc]
    rw [hfst, pageStatus_set_meta, h1, hs]

/-- C9 witness: a page with a non-select status property never triggers and
its row is overwritten with NULL even though it previously held a trigger
status. -/
theorem C9_witness :
    triggersFor "pg9" (runCycle c9inp c9store 0).2 = [] ∧
    rowLookup (runCycle c9inp c9store 0).1.pageStatus "pg9" = some none :=
  C9_unparseable_status c9inp c9store 0 [] [] c9page rfl rfl (by simp) (by simp) rfl

/-- C10: upserting the status of record X changes no other record's
last-known status, and leaves the recipients and the checkpoint unchanged. -/
theorem C10_upsert_frame (st : Store) (X Y : String) (s : Option String) (h : Y ≠ X) :
    get_last_status (upsert_status st X s) Y = get_last_status st Y ∧
    (upsert_status st X s).users = st.users ∧
    get_meta (upsert_status st X s) = get_meta st :=
  ⟨get_last_status_upsert_ne st X Y s h, rfl, rfl⟩

/-- C10 witness: upserting record "x" leaves record "y", the subscribers and
the checkpoint untouched. -/
theorem C10_witness :
    ("y" : String) ≠ "x" ∧
    (get_last_status (upsert_status c10store "x" (some "Заканчивается")) "y" = get_last_status c10store "y" ∧
     (upsert_status c10store "x" (some "Заканчивается")).users = c10store.users ∧
     get_meta (upsert_status c10store "x" (some "Заканчивается")) = get_meta c10store) :=
  ⟨by decide, C10_upsert_frame c10store "x" "y" (some "Заканчивается") (by decide)⟩

end NotionBot
